import Mathlib

/-!
Shallow embedding of the wallet ledger and investment accrual engine of the
crypto-arbitrage platform (src/src/services/walletService.ts,
src/src/services/investmentService.ts, src/src/lib/database.ts).

Monetary amounts and rates are modelled as rationals, timestamps as integers
(milliseconds since epoch, matching `Date.getTime()`).  The durable store is a
record of lists; each `db.*` call of the TS code becomes a pure function on
that record.  `db.updateWalletBalance` catches store errors and returns
`null`; we model such transient failures by a `fails` list of wallet ids whose
balance updates fail silently.  Distinct error message strings of the TS code
become constructors of `SvcError`.  Inert side channels (notifications, audit
logs, free-text notes) are omitted: they never influence balances, statuses or
control flow.
-/

namespace CryptoArb

/-- Asset symbols supported by the platform (`WalletBalance.asset`). -/
inductive Asset
  | BTC
  | ETH
  | USDT
  | USDC
deriving DecidableEq

/-- Transaction kinds (`TransactionRequest.type` in walletService.ts). -/
inductive TxKind
  | DEPOSIT
  | WITHDRAW
  | EXCHANGE
  | INVEST
deriving DecidableEq

/-- Transaction statuses. -/
inductive TxStatus
  | PENDING
  | COMPLETED
  | REJECTED
deriving DecidableEq

/-- Subscription statuses. -/
inductive SubStatus
  | ACTIVE
  | COMPLETED
  | CANCELLED
deriving DecidableEq

/-- Service errors.  The TS code reports these as message strings (for example
`Insufficient balance`); each distinct message becomes a constructor, carrying
the data the TS code interpolates into the message. -/
inductive SvcError
  | walletNotFound
  | insufficientBalance
  | minimumAmount (asset : Asset) (minAmt : ℚ)
  | insufficientBalanceForInvestment
  | planNotFoundOrInactive
  | minimumInvestment (m : ℚ)
  | maximumInvestment (m : ℚ)
  | failedToCreateInvestmentTransaction
  | failedToCreateInvestment
  | investmentNotFound
  | investmentNotActive
deriving DecidableEq

/-- A wallet row (`wallets` table): one balance per (user, asset). -/
structure Wallet where
  id : Nat
  user_id : Nat
  asset : Asset
  balance : ℚ
deriving DecidableEq

/-- A transaction row (`transactions` table).  The source field `type` is
renamed `kind` (`type` is reserved in Lean); the free-text fields are
omitted. -/
structure Txn where
  id : Nat
  user_id : Nat
  kind : TxKind
  asset : Asset
  amount : ℚ
  status : TxStatus
  from_asset : Option Asset := none
  to_asset : Option Asset := none
  plan_id : Option Nat := none
deriving DecidableEq

/-- A plan row (`plans` table), the fields read by investmentService.ts. -/
structure Plan where
  id : Nat
  min_amount : ℚ
  max_amount : Option ℚ := none
  apy : ℚ
  duration_days : Int
  is_active : Bool
deriving DecidableEq

/-- A subscription row (`subscriptions` table).  Timestamps in ms. -/
structure Subscription where
  id : Nat
  user_id : Nat
  plan_id : Nat
  amount : ℚ
  start_date : Int
  end_date : Int
  status : SubStatus
  total_earned : ℚ
deriving DecidableEq

/-- The durable store: one record per table, plus a fresh-id counter for
inserted rows. -/
structure St where
  wallets : List Wallet
  txns : List Txn
  plans : List Plan
  subs : List Subscription
  nextId : Nat
deriving DecidableEq

/-- Per-asset minimum amounts checked for WITHDRAW and EXCHANGE requests
(`minAmounts` in walletService.validateTransaction). -/
def minAmount : Asset → ℚ
  | .BTC => 1 / 1000
  | .ETH => 1 / 100
  | .USDT => 10
  | .USDC => 10

/-- Per-asset network fees charged when a withdrawal is processed
(walletService.getNetworkFee, the `amount` component). -/
def networkFee : Asset → ℚ
  | .BTC => 1 / 10000
  | .ETH => 2 / 1000
  | .USDT => 1
  | .USDC => 1

/-- The fixed 0.1 percent exchange fee of walletService.processExchange. -/
def exchangeFeeRate : ℚ := 1 / 1000

/-- Milliseconds per day, the divisor of cancelInvestment's day count. -/
def msPerDay : Int := 1000 * 60 * 60 * 24

/-- db.getUserWallets: every wallet belonging to the user. -/
def getUserWallets (s : St) (uid : Nat) : List Wallet :=
  s.wallets.filter fun w => w.user_id == uid

/-- The `wallets.find(w => w.asset === asset)` idiom used throughout both
services: the user's wallet holding the given asset. -/
def findWallet (s : St) (uid : Nat) (a : Asset) : Option Wallet :=
  (getUserWallets s uid).find? fun w => w.asset == a

/-- db.updateWalletBalance: set the balance of the wallet with the given id
and return the updated row.  The TS function catches store errors and returns
`null`; wallet ids listed in `fails` model such transient failures, returning
`none` and leaving the store unchanged. -/
def updateWalletBalance (fails : List Nat) (s : St) (wid : Nat) (b : ℚ) :
    Option Wallet × St :=
  if wid ∈ fails then (none, s)
  else
    match s.wallets.find? (fun w => w.id == wid) with
    | none => (none, s)
    | some w =>
      (some { w with balance := b },
       { s with wallets := s.wallets.map fun x =>
           if x.id == wid then { x with balance := b } else x })

/-- db.createTransaction: insert a transaction row with a fresh id. -/
def createTxn (s : St) (uid : Nat) (k : TxKind) (a : Asset) (amt : ℚ)
    (st : TxStatus) (fromA toA : Option Asset) (planId : Option Nat) :
    Txn × St :=
  let t : Txn :=
    { id := s.nextId, user_id := uid, kind := k, asset := a, amount := amt,
      status := st, from_asset := fromA, to_asset := toA, plan_id := planId }
  (t, { s with txns := s.txns ++ [t], nextId := s.nextId + 1 })

/-- db.updateTransactionStatus. -/
def updateTxnStatus (s : St) (tid : Nat) (st : TxStatus) : St :=
  { s with txns := s.txns.map fun t =>
      if t.id == tid then { t with status := st } else t }

/-- walletService.getTransactionById (select single row by id). -/
def txnById (s : St) (tid : Nat) : Option Txn :=
  s.txns.find? fun t => t.id == tid

/-- db.updateSubscription with a `total_earned` update. -/
def subSetEarned (s : St) (sid : Nat) (e : ℚ) : St :=
  { s with subs := s.subs.map fun sb =>
      if sb.id == sid then { sb with total_earned := e } else sb }

/-- db.updateSubscription with a `status` update. -/
def subSetStatus (s : St) (sid : Nat) (st : SubStatus) : St :=
  { s with subs := s.subs.map fun sb =>
      if sb.id == sid then { sb with status := st } else sb }

/-- db.createSubscription: insert a subscription row with a fresh id. -/
def createSub (s : St) (uid planId : Nat) (amt : ℚ) (startD endD : Int)
    (st : SubStatus) (earned : ℚ) : Subscription × St :=
  let sb : Subscription :=
    { id := s.nextId, user_id := uid, plan_id := planId, amount := amt,
      start_date := startD, end_date := endD, status := st,
      total_earned := earned }
  (sb, { s with subs := s.subs ++ [sb], nextId := s.nextId + 1 })

/-- A `Partial<Plan>` update record, as passed to db.updatePlan. -/
structure PlanUpdate where
  min_amount : Option ℚ := none
  max_amount : Option (Option ℚ) := none
  apy : Option ℚ := none
  duration_days : Option Int := none
  is_active : Option Bool := none
deriving DecidableEq

/-- Overwrite exactly the fields present in the update. -/
def applyPlanUpdate (p : Plan) (u : PlanUpdate) : Plan :=
  { p with
    min_amount := u.min_amount.getD p.min_amount
    max_amount := u.max_amount.getD p.max_amount
    apy := u.apy.getD p.apy
    duration_days := u.duration_days.getD p.duration_days
    is_active := u.is_active.getD p.is_active }

/-- db.updatePlan: apply a partial update to the plan with the given id. -/
def dbUpdatePlan (s : St) (pid : Nat) (u : PlanUpdate) : St :=
  { s with plans := s.plans.map fun p =>
      if p.id == pid then applyPlanUpdate p u else p }

/-- A TransactionRequest (walletService.ts), free-text fields omitted. -/
structure TxnRequest where
  kind : TxKind
  asset : Asset
  amount : ℚ
  fromAsset : Option Asset := none
  toAsset : Option Asset := none
  planId : Option Nat := none
deriving DecidableEq

namespace WalletService

/-- walletService.validateTransaction; `none` means the request is valid.
WITHDRAW and EXCHANGE share one branch: wallet lookup on `request.asset`,
then the balance check, then the per-asset minimum check, in that order. -/
def validateTransaction (s : St) (uid : Nat) (req : TxnRequest) :
    Option SvcError :=
  match req.kind with
  | .WITHDRAW | .EXCHANGE =>
    match findWallet s uid req.asset with
    | none => some .walletNotFound
    | some w =>
      if w.balance < req.amount then some .insufficientBalance
      else if req.amount < minAmount req.asset then
        some (.minimumAmount req.asset (minAmount req.asset))
      else none
  | .DEPOSIT => none
  | .INVEST =>
    match findWallet s uid req.asset with
    | none => some .insufficientBalanceForInvestment
    | some w =>
      if w.balance < req.amount then some .insufficientBalanceForInvestment
      else none

/-- walletService.processDeposit: credit the wallet; fails when the wallet is
missing or the balance update fails. -/
def processDeposit (fails : List Nat) (s : St) (uid : Nat) (a : Asset)
    (amt : ℚ) : Bool × St :=
  match findWallet s uid a with
  | none => (false, s)
  | some w =>
    match updateWalletBalance fails s w.id (w.balance + amt) with
    | (none, s₁) => (false, s₁)
    | (some _, s₁) => (true, s₁)

/-- walletService.processWithdrawal: re-check the balance, then debit the
amount plus the asset's network fee. -/
def processWithdrawal (fails : List Nat) (s : St) (uid : Nat) (a : Asset)
    (amt : ℚ) : Bool × St :=
  match findWallet s uid a with
  | none => (false, s)
  | some w =>
    if w.balance < amt then (false, s)
    else
      let totalDeduction := amt + networkFee a
      if w.balance < totalDeduction then (false, s)
      else
        match updateWalletBalance fails s w.id (w.balance - totalDeduction) with
        | (none, s₁) => (false, s₁)
        | (some _, s₁) => (true, s₁)

/-- walletService.processExchange: debit the source wallet, credit the
destination wallet at the supplied conversion rate less the exchange fee.
Both balance-update results are ignored by the TS code, and the destination
balance was read before the debit. -/
def processExchange (fails : List Nat) (rate : ℚ) (s : St) (uid : Nat)
    (fromA toA : Asset) (amt : ℚ) : Bool × St :=
  match findWallet s uid fromA, findWallet s uid toA with
  | some fw, some tw =>
    if fw.balance < amt then (false, s)
    else
      let receivedAmount := amt * rate * (1 - exchangeFeeRate)
      let s₁ := (updateWalletBalance fails s fw.id (fw.balance - amt)).2
      let s₂ := (updateWalletBalance fails s₁ tw.id (tw.balance + receivedAmount)).2
      (true, s₂)
  | _, _ => (false, s)

/-- Final status write of walletService.processTransaction. -/
def finishTxn (s : St) (tid : Nat) (success : Bool) : St :=
  if success then updateTxnStatus s tid .COMPLETED
  else updateTxnStatus s tid .REJECTED

/-- walletService.processTransaction.  `rate` is the conversion rate the
exchange path obtains from the external rate source
(cryptoAPI.convertCrypto).  WITHDRAW returns early and stays PENDING;
INVEST is marked successful without any balance effect ("handled by the
investment service"). -/
def processTransaction (fails : List Nat) (rate : ℚ) (s : St) (t : Txn) : St :=
  match t.kind with
  | .WITHDRAW => s
  | .DEPOSIT =>
    let r := processDeposit fails s t.user_id t.asset t.amount
    finishTxn r.2 t.id r.1
  | .EXCHANGE =>
    let r :=
      match t.from_asset, t.to_asset with
      | some f, some toA => processExchange fails rate s t.user_id f toA t.amount
      | _, _ => (false, s)
    finishTxn r.2 t.id r.1
  | .INVEST => finishTxn s t.id true

/-- walletService.createTransaction: validate, insert a PENDING row, process
it.  A validation failure throws before any row is inserted or any balance is
touched. -/
def createTransaction (fails : List Nat) (rate : ℚ) (s : St) (uid : Nat)
    (req : TxnRequest) : Except SvcError St :=
  match validateTransaction s uid req with
  | some e => .error e
  | none =>
    let r := createTxn s uid req.kind req.asset req.amount .PENDING
      req.fromAsset req.toAsset req.planId
    .ok (processTransaction fails rate r.2 r.1)

/-- walletService.approveWithdrawal: only a PENDING WITHDRAW can be approved;
the debit happens now, via processWithdrawal. -/
def approveWithdrawal (fails : List Nat) (s : St) (tid : Nat) : Bool × St :=
  match txnById s tid with
  | none => (false, s)
  | some t =>
    if t.kind == .WITHDRAW && t.status == .PENDING then
      let r := processWithdrawal fails s t.user_id t.asset t.amount
      if r.1 then (true, updateTxnStatus r.2 tid .COMPLETED)
      else (false, r.2)
    else (false, s)

/-- walletService.rejectWithdrawal: only a PENDING WITHDRAW can be rejected;
no balance effect. -/
def rejectWithdrawal (s : St) (tid : Nat) : Bool × St :=
  match txnById s tid with
  | none => (false, s)
  | some t =>
    if t.kind == .WITHDRAW && t.status == .PENDING then
      (true, updateTxnStatus s tid .REJECTED)
    else (false, s)

end WalletService

namespace InvestmentService

/-- An InvestmentRequest (investmentService.ts). -/
structure InvestmentRequest where
  planId : Nat
  amount : ℚ
  asset : Asset
deriving DecidableEq

/-- The truthiness test `plan.max_amount && request.amount > plan.max_amount`
of investmentService.validateInvestment: an absent (or zero, hence falsy)
max_amount means unbounded. -/
def maxExceeded (mx : Option ℚ) (amt : ℚ) : Bool :=
  match mx with
  | some m => !(m == 0) && amt > m
  | none => false

/-- investmentService.validateInvestment: the plan must exist and be active,
and the amount must lie within the plan's bounds. -/
def validateInvestment (s : St) (req : InvestmentRequest) :
    Except SvcError Plan :=
  match s.plans.find? (fun p => p.id == req.planId && p.is_active) with
  | none => .error .planNotFoundOrInactive
  | some plan =>
    if req.amount < plan.min_amount then
      .error (.minimumInvestment plan.min_amount)
    else if maxExceeded plan.max_amount req.amount then
      .error (.maximumInvestment (plan.max_amount.getD 0))
    else .ok plan

/-- Result record of investmentService.createInvestment. -/
structure InvestResult where
  success : Bool
  errorMsg : Option SvcError := none
  subscriptionId : Option Nat := none
deriving DecidableEq

/-- investmentService.createInvestment, with `now` standing for `new Date()`
in ms.  The call to walletService.createTransaction has TS return type
`Promise<void>`, so the value awaited into the local `transaction` is
`undefined`; `awaitedTxn` records that value, and the falsy guard
`if (!transaction)` right after it therefore always fires once the call
returns without throwing.  The code below that guard (subscription creation
and the wallet debit, both kept here as written) is unreachable. -/
def createInvestment (fails : List Nat) (now : Int) (s : St) (uid : Nat)
    (req : InvestmentRequest) : InvestResult × St :=
  match validateInvestment s req with
  | .error e => ({ success := false, errorMsg := some e }, s)
  | .ok plan =>
    match findWallet s uid req.asset with
    | none => ({ success := false, errorMsg := some .insufficientBalance }, s)
    | some w =>
      if w.balance < req.amount then
        ({ success := false, errorMsg := some .insufficientBalance }, s)
      else
        match WalletService.createTransaction fails 1 s uid
            { kind := .INVEST, asset := req.asset, amount := req.amount,
              planId := some req.planId } with
        | .error _ =>
          ({ success := false, errorMsg := some .failedToCreateInvestment }, s)
        | .ok s₁ =>
          let awaitedTxn : Option Unit := none
          match awaitedTxn with
          | none =>
            ({ success := false,
               errorMsg := some .failedToCreateInvestmentTransaction }, s₁)
          | some _ =>
            let endD := now + plan.duration_days * msPerDay
            let r := createSub s₁ uid req.planId req.amount now endD .ACTIVE 0
            let s₃ := (updateWalletBalance fails r.2 w.id
              (w.balance - req.amount)).2
            ({ success := true, subscriptionId := some r.1.id }, s₃)

/-- The `Math.floor((now - start) / (1000*60*60*24))` day count of
investmentService.cancelInvestment.  `Math.floor` on the (possibly negative)
ratio is floor division. -/
def daysBetween (now startD : Int) : Int :=
  Int.fdiv (now - startD) msPerDay

/-- Refund and penalty computation of cancelInvestment: a 5 percent penalty
when cancelled within the first 30 days, full refund afterwards.  Returns
(refundAmount, penalty). -/
def cancelPenalty (amount : ℚ) (daysSinceStart : Int) : ℚ × ℚ :=
  if daysSinceStart < 30 then
    (amount - amount * (5 / 100), amount * (5 / 100))
  else (amount, 0)

/-- Result record of investmentService.cancelInvestment. -/
structure CancelResult where
  success : Bool
  errorMsg : Option SvcError := none
deriving DecidableEq

/-- investmentService.cancelInvestment: flip the subscription to CANCELLED,
then credit the user's USDT wallet with the refund (silently skipped when no
USDT wallet exists; the balance-update result is ignored), then record the
refund transaction.  Success is reported unconditionally after the status
flip. -/
def cancelInvestment (fails : List Nat) (now : Int) (s : St) (uid sid : Nat) :
    CancelResult × St :=
  match s.subs.find? (fun sb => sb.id == sid && sb.user_id == uid) with
  | none => ({ success := false, errorMsg := some .investmentNotFound }, s)
  | some sub =>
    if !(sub.status == .ACTIVE) then
      ({ success := false, errorMsg := some .investmentNotActive }, s)
    else
      let d := daysBetween now sub.start_date
      let refundAmount := (cancelPenalty sub.amount d).1
      let s₁ := subSetStatus s sid .CANCELLED
      let s₂ :=
        match findWallet s₁ uid .USDT with
        | some uw => (updateWalletBalance fails s₁ uw.id
            (uw.balance + refundAmount)).2
        | none => s₁
      let r := createTxn s₂ uid .DEPOSIT .USDT refundAmount .COMPLETED
        none none none
      ({ success := true }, r.2)

/-- Body of the per-subscription loop of investmentService.processEarnings.
`pair` is one row of the snapshot taken at the start of the sweep: the
subscription joined with its plan (`select('*, plans (*)')`); a missing plan
is skipped (`if (!plan) continue`).  The USDT wallet row `uw?` is read once,
before the earnings credit; the maturity branch re-uses it, so the principal
write is based on that stale balance. -/
def accrueOne (fails : List Nat) (now : Int) (s : St)
    (pair : Subscription × Option Plan) : St :=
  match pair.2 with
  | none => s
  | some plan =>
    let sub := pair.1
    let dailyRate := plan.apy / 365 / 100
    let dailyEarnings := sub.amount * dailyRate
    let newTotalEarned := sub.total_earned + dailyEarnings
    let s₁ := subSetEarned s sub.id newTotalEarned
    let uw? := findWallet s₁ sub.user_id .USDT
    let s₂ :=
      match uw? with
      | some uw => (updateWalletBalance fails s₁ uw.id
          (uw.balance + dailyEarnings)).2
      | none => s₁
    let s₃ := (createTxn s₂ sub.user_id .DEPOSIT .USDT dailyEarnings
      .COMPLETED none none none).2
    if now ≥ sub.end_date then
      let s₄ := subSetStatus s₃ sub.id .COMPLETED
      let s₅ :=
        match uw? with
        | some uw => (updateWalletBalance fails s₄ uw.id
            (uw.balance + sub.amount)).2
        | none => s₄
      (createTxn s₅ sub.user_id .DEPOSIT .USDT sub.amount
        .COMPLETED none none none).2
    else s₃

/-- investmentService.processEarnings: one accrual sweep.  The query snapshot
(ACTIVE subscriptions, each joined with its plan) is taken up front; the loop
then runs accrueOne over it, threading the store state. -/
def processEarnings (fails : List Nat) (now : Int) (s : St) : St :=
  ((s.subs.filter fun sb => sb.status == .ACTIVE).map fun sb =>
    (sb, s.plans.find? fun p => p.id == sb.plan_id)).foldl
    (accrueOne fails now) s

/-- investmentService.updatePlan (writes through db.updatePlan; the audit log
is inert). -/
def updatePlan (s : St) (pid : Nat) (u : PlanUpdate) : St :=
  dbUpdatePlan s pid u

end InvestmentService

/-- One externally-invoked ledger operation together with its environment:
the injected transient store failures, the conversion rate an exchange
obtains from the rate source, and the wall clock where it is read. -/
inductive Op
  | submitDeposit (uid : Nat) (asset : Asset) (amount : ℚ) (fails : List Nat)
  | submitWithdraw (uid : Nat) (asset : Asset) (amount : ℚ) (fails : List Nat)
  | submitExchange (uid : Nat) (src dst : Asset) (amount rate : ℚ)
      (fails : List Nat)
  | submitInvest (uid planId : Nat) (asset : Asset) (amount : ℚ) (now : Int)
      (fails : List Nat)
  | approveTx (tid : Nat) (fails : List Nat)
  | rejectTx (tid : Nat)
  | sweep (now : Int) (fails : List Nat)

/-- Effect of one operation on the store.  A submit whose validation throws
leaves the store untouched (the throw happens before any row is written). -/
def step (s : St) : Op → St
  | .submitDeposit uid a amt fails =>
    match WalletService.createTransaction fails 1 s uid
        { kind := .DEPOSIT, asset := a, amount := amt } with
    | .ok s₁ => s₁
    | .error _ => s
  | .submitWithdraw uid a amt fails =>
    match WalletService.createTransaction fails 1 s uid
        { kind := .WITHDRAW, asset := a, amount := amt } with
    | .ok s₁ => s₁
    | .error _ => s
  | .submitExchange uid src dst amt rate fails =>
    match WalletService.createTransaction fails rate s uid
        { kind := .EXCHANGE, asset := src, amount := amt,
          fromAsset := some src, toAsset := some dst } with
    | .ok s₁ => s₁
    | .error _ => s
  | .submitInvest uid pid a amt now fails =>
    (InvestmentService.createInvestment fails now s uid
      { planId := pid, amount := amt, asset := a }).2
  | .approveTx tid fails => (WalletService.approveWithdrawal fails s tid).2
  | .rejectTx tid => (WalletService.rejectWithdrawal s tid).2
  | .sweep now fails => InvestmentService.processEarnings fails now s

/-- Run a sequence of operations. -/
def run (s : St) (ops : List Op) : St :=
  ops.foldl step s

/-- All wallet balances are non-negative. -/
def WB (s : St) : Prop := ∀ w ∈ s.wallets, 0 ≤ w.balance

/-- All subscription principals are non-negative. -/
def SA (s : St) : Prop := ∀ sb ∈ s.subs, 0 ≤ sb.amount

/-- All plan yield rates are non-negative. -/
def PA (s : St) : Prop := ∀ p ∈ s.plans, 0 ≤ p.apy

/-- Store well-formedness carried through the induction. -/
def WFState (s : St) : Prop := WB s ∧ SA s ∧ PA s

/-- Domain conditions on one operation, from the data model: request amounts
are non-negative decimals, and the rate source supplies non-negative
conversion rates. -/
def WFOp : Op → Prop
  | .submitDeposit _ _ amt _ => 0 ≤ amt
  | .submitExchange _ _ _ _ rate _ => 0 ≤ rate
  | _ => True

/-! ### Concrete scenario data used by the claim theorems -/

/-- Balance of a user's wallet in a given asset, 0 when absent. -/
def balOf (s : St) (uid : Nat) (a : Asset) : ℚ :=
  ((findWallet s uid a).map Wallet.balance).getD 0

/-- Balance of the user's USDT settlement wallet, 0 when absent. -/
def usdtBal (s : St) (uid : Nat) : ℚ :=
  ((findWallet s uid .USDT).map Wallet.balance).getD 0

/-- Status of the subscription with the given id, when present. -/
def subStatusOf (s : St) (sid : Nat) : Option SubStatus :=
  (s.subs.find? fun sb => sb.id == sid).map Subscription.status

/-- An active plan at 12.5 percent per year over 30 days. -/
def c1Plan : Plan :=
  { id := 3, min_amount := 100, max_amount := some 100000, apy := 25 / 2,
    duration_days := 30, is_active := true }

/-- A running subscription of principal 1000 on `c1Plan`. -/
def c1Sub : Subscription :=
  { id := 5, user_id := 7, plan_id := 3, amount := 1000, start_date := 0,
    end_date := 30 * msPerDay, status := .ACTIVE, total_earned := 0 }

/-- A USDT wallet of user 7 at balance 0. -/
def c1Wallet : Wallet := { id := 1, user_id := 7, asset := .USDT, balance := 0 }

/-- Store with one USDT wallet at balance 0 and the subscription above. -/
def c1St : St :=
  { wallets := [c1Wallet], txns := [], plans := [c1Plan], subs := [c1Sub],
    nextId := 10 }

/-- An active plan at 5.5 percent per year over 30 days. -/
def c5Plan : Plan :=
  { id := 3, min_amount := 100, max_amount := some 1000, apy := 11 / 2,
    duration_days := 30, is_active := true }

/-- A subscription of principal 1000 on `c5Plan` whose end date is day 30. -/
def c5Sub : Subscription :=
  { id := 5, user_id := 7, plan_id := 3, amount := 1000, start_date := 0,
    end_date := 30 * msPerDay, status := .ACTIVE, total_earned := 0 }

/-- Store with one USDT wallet at balance 100 and the subscription above. -/
def c5St : St :=
  { wallets := [{ id := 1, user_id := 7, asset := .USDT, balance := 100 }],
    txns := [], plans := [c5Plan], subs := [c5Sub], nextId := 10 }

/-- Store with a USDT wallet (1000) and a BTC wallet (0) for one user. -/
def c4St : St :=
  { wallets := [{ id := 1, user_id := 7, asset := .USDT, balance := 1000 },
                { id := 2, user_id := 7, asset := .BTC, balance := 0 }],
    txns := [], plans := [], subs := [], nextId := 0 }

/-- Store with one USDT wallet at balance 1000 and the 5.5 percent plan. -/
def c6St : St :=
  { wallets := [{ id := 1, user_id := 7, asset := .USDT, balance := 1000 }],
    txns := [], plans := [c5Plan], subs := [], nextId := 0 }

/-- A fully valid investment request against `c6St`. -/
def c6Req : InvestmentService.InvestmentRequest :=
  { planId := 3, amount := 500, asset := .USDT }

/-- A running subscription owned by a user who holds no USDT wallet. -/
def c9St : St :=
  { wallets := [{ id := 1, user_id := 7, asset := .BTC, balance := 2 }],
    txns := [], plans := [c5Plan], subs := [c5Sub], nextId := 0 }

/-- A USDT wallet of user 7 at balance 20, for the withdrawal scenario. -/
def c3Wallet : Wallet :=
  { id := 1, user_id := 7, asset := .USDT, balance := 20 }

/-- Store with one USDT wallet at balance 20. -/
def c3St : St :=
  { wallets := [c3Wallet], txns := [], plans := [], subs := [], nextId := 0 }

/-- The pending withdrawal row that submitting 10 USDT against c3St
creates. -/
def c3Pending : Txn :=
  { id := 0, user_id := 7, kind := .WITHDRAW, asset := .USDT, amount := 10,
    status := .PENDING }

/-- c3St after the withdrawal submission: balance untouched, row pending. -/
def c3StAfter : St :=
  { wallets := [c3Wallet], txns := [c3Pending], plans := [], subs := [],
    nextId := 1 }

/-- Store with one USDT wallet at balance 5. -/
def c10St : St :=
  { wallets := [{ id := 1, user_id := 7, asset := .USDT, balance := 5 }],
    txns := [], plans := [], subs := [], nextId := 0 }

/-- An exchange request of 8 USDT, below the 10 USDT minimum, from a wallet
holding only 5. -/
def c10Req : TxnRequest :=
  { kind := .EXCHANGE, asset := .USDT, amount := 8, fromAsset := some .USDT,
    toAsset := some .BTC }

/-- Initial store for the C2 witness. -/
def c2Init : St :=
  { wallets := [{ id := 1, user_id := 7, asset := .USDT, balance := 5 }],
    txns := [], plans := [], subs := [], nextId := 0 }

/-- A one-deposit operation sequence for the C2 witness. -/
def c2Ops : List Op := [.submitDeposit 7 .USDT 3 []]

/-- Subscription for the cancellation-boundary witness (duration 40 days,
so day 29 and day 31 both precede maturity). -/
def c8Sub : Subscription :=
  { id := 5, user_id := 7, plan_id := 3, amount := 1000, start_date := 0,
    end_date := 40 * msPerDay, status := .ACTIVE, total_earned := 0 }

/-- A USDT wallet of user 7 at balance 100. -/
def c8Wallet : Wallet :=
  { id := 1, user_id := 7, asset := .USDT, balance := 100 }

/-- Store with one USDT wallet at balance 100 and the subscription above. -/
def c8St : St :=
  { wallets := [c8Wallet], txns := [], plans := [], subs := [c8Sub],
    nextId := 10 }

/-- A USDT wallet of user 7 at balance 20. -/
def c10Wallet : Wallet :=
  { id := 1, user_id := 7, asset := .USDT, balance := 20 }

/-- Store with one USDT wallet at balance 20, for the C10 witness. -/
def c10StB : St :=
  { wallets := [c10Wallet], txns := [], plans := [], subs := [], nextId := 0 }

/-- The exchange request a submitExchange step validates and processes. -/
def exchangeReq (src dst : Asset) (amt : ℚ) : TxnRequest :=
  { kind := .EXCHANGE, asset := src, amount := amt, fromAsset := some src,
    toAsset := some dst }

/-- A plan update that doubles the annualized rate of `c1Plan` to 25. -/
def c7Upd : PlanUpdate := { apy := some 25 }

/-- The COMPLETED exchange row that the C4 scenario leaves behind. -/
def c4Txn : Txn :=
  { id := 0, user_id := 7, kind := .EXCHANGE, asset := .USDT, amount := 100,
    status := .COMPLETED, from_asset := some .USDT, to_asset := some .BTC }

/-- The COMPLETED invest row that the C6 scenario leaves behind. -/
def c6Txn : Txn :=
  { id := 0, user_id := 7, kind := .INVEST, asset := .USDT, amount := 500,
    status := .COMPLETED, plan_id := some 3 }

/-! ### Generic list lemmas -/

theorem filterCommMap {α : Type} (g : α → α) (p : α → Bool)
    (h : ∀ x, p (g x) = p x) (l : List α) :
    (l.map g).filter p = (l.filter p).map g := by
  induction l with
  | nil => rfl
  | cons x xs ih =>
    simp only [List.map_cons, List.filter_cons, h x, ih]
    by_cases hx : p x = true <;> simp [hx]

theorem findCommMap {α : Type} (g : α → α) (p : α → Bool)
    (h : ∀ x, p (g x) = p x) (l : List α) :
    (l.map g).find? p = (l.find? p).map g := by
  rw [List.find?_map]
  have hpg : p ∘ g = p := funext h
  rw [hpg]

/-! ### Structural lemmas about the store operations -/

theorem subs_updateWalletBalance (fails : List Nat) (s : St) (wid : Nat)
    (b : ℚ) : ((updateWalletBalance fails s wid b).2).subs = s.subs := by
  unfold updateWalletBalance
  split
  · rfl
  · split <;> rfl

theorem plans_updateWalletBalance (fails : List Nat) (s : St) (wid : Nat)
    (b : ℚ) : ((updateWalletBalance fails s wid b).2).plans = s.plans := by
  unfold updateWalletBalance
  split
  · rfl
  · split <;> rfl

theorem txns_updateWalletBalance (fails : List Nat) (s : St) (wid : Nat)
    (b : ℚ) : ((updateWalletBalance fails s wid b).2).txns = s.txns := by
  unfold updateWalletBalance
  split
  · rfl
  · split <;> rfl

theorem wallets_updateWalletBalance_cases (fails : List Nat) (s : St)
    (wid : Nat) (b : ℚ) :
    ((updateWalletBalance fails s wid b).2).wallets = s.wallets ∨
    ((updateWalletBalance fails s wid b).2).wallets =
      s.wallets.map fun x => if x.id == wid then { x with balance := b }
        else x := by
  unfold updateWalletBalance
  split
  · exact Or.inl rfl
  · split
    · exact Or.inl rfl
    · exact Or.inr rfl

theorem WB_updateWalletBalance {s : St} (hs : WB s) {b : ℚ} (hb : 0 ≤ b)
    (fails : List Nat) (wid : Nat) :
    WB ((updateWalletBalance fails s wid b).2) := by
  intro w hw
  rcases wallets_updateWalletBalance_cases fails s wid b with hc | hc
  · rw [hc] at hw
    exact hs w hw
  · rw [hc] at hw
    rcases List.mem_map.1 hw with ⟨x, hx, rfl⟩
    by_cases hid : (x.id == wid) = true
    · simpa [hid] using hb
    · simpa [hid] using hs x hx

theorem findWallet_props {s : St} {uid : Nat} {a : Asset} {w : Wallet}
    (h : findWallet s uid a = some w) :
    w ∈ s.wallets ∧ (w.user_id == uid) = true ∧ (w.asset == a) = true := by
  have h₁ := List.mem_of_find?_eq_some h
  have h₂ := List.find?_some h
  unfold getUserWallets at h₁
  rw [List.mem_filter] at h₁
  exact ⟨h₁.1, h₁.2, h₂⟩

theorem findWallet_mem {s : St} {uid : Nat} {a : Asset} {w : Wallet}
    (h : findWallet s uid a = some w) : w ∈ s.wallets :=
  (findWallet_props h).1

theorem findWallet_balance_nonneg {s : St} (hs : WB s) {uid : Nat}
    {a : Asset} {w : Wallet} (h : findWallet s uid a = some w) :
    0 ≤ w.balance :=
  hs w (findWallet_mem h)

theorem findWallet_mapped (s : St) (g : Wallet → Wallet)
    (hg1 : ∀ x, (g x).user_id = x.user_id)
    (hg2 : ∀ x, (g x).asset = x.asset) (uid : Nat) (a : Asset) :
    findWallet { s with wallets := s.wallets.map g } uid a =
      (findWallet s uid a).map g := by
  unfold findWallet getUserWallets
  dsimp only
  rw [filterCommMap g (fun w => w.user_id == uid) (fun x => by simp only [hg1]),
    findCommMap g (fun w => w.asset == a) (fun x => by simp only [hg2])]

theorem findWallet_updateWalletBalance {s : St} {uid : Nat} {a : Asset}
    {w : Wallet} (h : findWallet s uid a = some w) (b : ℚ) :
    findWallet ((updateWalletBalance [] s w.id b).2) uid a =
      some { w with balance := b } := by
  have hmem := findWallet_mem h
  unfold updateWalletBalance
  rw [if_neg (List.not_mem_nil w.id)]
  cases hfind : s.wallets.find? (fun x => x.id == w.id) with
  | none =>
    exfalso
    rw [List.find?_eq_none] at hfind
    exact hfind w hmem (by simp)
  | some w₀ =>
    dsimp only
    rw [findWallet_mapped s _ (fun x => by split <;> rfl)
      (fun x => by split <;> rfl) uid a, h]
    simp

theorem updateWalletBalance_spec {s : St} {w : Wallet} (hmem : w ∈ s.wallets)
    (b : ℚ) :
    ∃ w₀, updateWalletBalance [] s w.id b = (some w₀,
      { s with wallets := s.wallets.map fun x =>
          if x.id == w.id then { x with balance := b } else x }) := by
  unfold updateWalletBalance
  rw [if_neg (List.not_mem_nil w.id)]
  cases hfind : s.wallets.find? (fun x => x.id == w.id) with
  | none =>
    rw [List.find?_eq_none] at hfind
    exact absurd (by simp) (hfind w hmem)
  | some w₁ => exact ⟨_, rfl⟩

theorem txnById_updateTxnStatus {s : St} {tid : Nat} {t : Txn}
    (ht : txnById s tid = some t) (st : TxStatus) :
    txnById (updateTxnStatus s tid st) tid = some { t with status := st } := by
  unfold txnById at ht
  have hpt : (t.id == tid) = true := by simpa using List.find?_some ht
  unfold txnById updateTxnStatus
  dsimp only
  rw [findCommMap (fun x : Txn => if x.id == tid then { x with status := st }
    else x) (fun x => x.id == tid)
    (fun x => by by_cases hx : (x.id == tid) = true <;> simp [hx]) s.txns,
    ht]
  rw [Option.map_some', if_pos hpt]

/-! ### Positivity of the fee and threshold tables -/

theorem minAmount_pos (a : Asset) : 0 < minAmount a := by
  cases a <;> norm_num [minAmount]

theorem networkFee_pos (a : Asset) : 0 < networkFee a := by
  cases a <;> norm_num [networkFee]

/-! ### Balance non-negativity through the wallet service -/

theorem WB_processDeposit {s : St} (hs : WB s) {amt : ℚ} (hamt : 0 ≤ amt)
    (fails : List Nat) (uid : Nat) (a : Asset) :
    WB (WalletService.processDeposit fails s uid a amt).2 := by
  unfold WalletService.processDeposit
  cases hfw : findWallet s uid a with
  | none => exact hs
  | some w =>
    have hwb := findWallet_balance_nonneg hs hfw
    have hWB : WB (updateWalletBalance fails s w.id (w.balance + amt)).2 :=
      WB_updateWalletBalance hs (by linarith) fails w.id
    cases hu : updateWalletBalance fails s w.id (w.balance + amt) with
    | mk r s₁ =>
      rw [hu] at hWB
      cases r <;> simpa [hu] using hWB

theorem WB_processWithdrawal {s : St} (hs : WB s) (fails : List Nat)
    (uid : Nat) (a : Asset) (amt : ℚ) :
    WB (WalletService.processWithdrawal fails s uid a amt).2 := by
  unfold WalletService.processWithdrawal
  cases hfw : findWallet s uid a with
  | none => exact hs
  | some w =>
    dsimp only
    split
    · exact hs
    · split
      · exact hs
      · rename_i h₁ h₂
        have hb : 0 ≤ w.balance - (amt + networkFee a) := by
          rw [not_lt] at h₂
          linarith
        have hWB : WB (updateWalletBalance fails s w.id
            (w.balance - (amt + networkFee a))).2 :=
          WB_updateWalletBalance hs hb fails w.id
        cases hu : updateWalletBalance fails s w.id
            (w.balance - (amt + networkFee a)) with
        | mk r s₁ =>
          rw [hu] at hWB
          cases r <;> simpa [hu] using hWB

theorem WB_processExchange {s : St} (hs : WB s) {amt rate : ℚ}
    (hamt : 0 ≤ amt) (hrate : 0 ≤ rate) (fails : List Nat) (uid : Nat)
    (fromA toA : Asset) :
    WB (WalletService.processExchange fails rate s uid fromA toA amt).2 := by
  unfold WalletService.processExchange
  cases hf : findWallet s uid fromA with
  | none => exact hs
  | some fw =>
    cases ht : findWallet s uid toA with
    | none => exact hs
    | some tw =>
      dsimp only
      split
      · exact hs
      · rename_i hlt
        rw [not_lt] at hlt
        have h₁ : WB (updateWalletBalance fails s fw.id (fw.balance - amt)).2 :=
          WB_updateWalletBalance hs (by linarith) fails fw.id
        have htwb := findWallet_balance_nonneg hs ht
        have hrecv : 0 ≤ amt * rate * (1 - exchangeFeeRate) := by
          have hfee : (0 : ℚ) ≤ 1 - exchangeFeeRate := by
            norm_num [exchangeFeeRate]
          exact mul_nonneg (mul_nonneg hamt hrate) hfee
        exact WB_updateWalletBalance h₁ (by linarith) fails tw.id

theorem WB_updateTxnStatus {s : St} (hs : WB s) (tid : Nat) (st : TxStatus) :
    WB (updateTxnStatus s tid st) :=
  hs

theorem WB_finishTxn {s : St} (hs : WB s) (tid : Nat) (b : Bool) :
    WB (WalletService.finishTxn s tid b) := by
  unfold WalletService.finishTxn
  split <;> exact hs

theorem WB_processTransaction {s : St} (hs : WB s) {t : Txn} {rate : ℚ}
    (hdep : t.kind = .DEPOSIT → 0 ≤ t.amount)
    (hex : t.kind = .EXCHANGE → 0 ≤ t.amount ∧ 0 ≤ rate)
    (fails : List Nat) :
    WB (WalletService.processTransaction fails rate s t) := by
  unfold WalletService.processTransaction
  cases hk : t.kind with
  | WITHDRAW => exact hs
  | DEPOSIT =>
    exact WB_finishTxn (WB_processDeposit hs (hdep hk) fails t.user_id t.asset)
      t.id _
  | EXCHANGE =>
    rcases hex hk with ⟨ha, hr⟩
    cases t.from_asset with
    | none => exact WB_finishTxn hs t.id _
    | some f =>
      cases t.to_asset with
      | none => exact WB_finishTxn hs t.id _
      | some toA =>
        exact WB_finishTxn (WB_processExchange hs ha hr fails t.user_id f toA)
          t.id _
  | INVEST => exact WB_finishTxn hs t.id _

theorem validate_withdraw_exchange {s : St} {uid : Nat} {req : TxnRequest}
    (hv : WalletService.validateTransaction s uid req = none)
    (hk : req.kind = .WITHDRAW ∨ req.kind = .EXCHANGE) :
    ∃ w, findWallet s uid req.asset = some w ∧ req.amount ≤ w.balance ∧
      minAmount req.asset ≤ req.amount := by
  unfold WalletService.validateTransaction at hv
  have hv' : (match findWallet s uid req.asset with
      | none => some SvcError.walletNotFound
      | some w =>
        if w.balance < req.amount then some SvcError.insufficientBalance
        else if req.amount < minAmount req.asset then
          some (SvcError.minimumAmount req.asset (minAmount req.asset))
        else none) = none := by
    rcases hk with hk | hk <;> rw [hk] at hv <;> exact hv
  cases hfw : findWallet s uid req.asset with
  | none => rw [hfw] at hv'; exact absurd hv' (by simp)
  | some w =>
    rw [hfw] at hv'
    dsimp only at hv'
    refine ⟨w, rfl, ?_, ?_⟩
    · by_cases hb : w.balance < req.amount
      · rw [if_pos hb] at hv'; exact absurd hv' (by simp)
      · exact not_lt.1 hb
    · by_cases hb : w.balance < req.amount
      · rw [if_pos hb] at hv'; exact absurd hv' (by simp)
      · rw [if_neg hb] at hv'
        by_cases hm : req.amount < minAmount req.asset
        · rw [if_pos hm] at hv'; exact absurd hv' (by simp)
        · exact not_lt.1 hm

theorem WB_createTransaction {s : St} (hs : WB s) {uid : Nat}
    {req : TxnRequest} {rate : ℚ} (fails : List Nat)
    (hdep : req.kind = .DEPOSIT → 0 ≤ req.amount)
    (hrate : req.kind = .EXCHANGE → 0 ≤ rate) {s₁ : St}
    (h : WalletService.createTransaction fails rate s uid req = .ok s₁) :
    WB s₁ := by
  unfold WalletService.createTransaction at h
  cases hv : WalletService.validateTransaction s uid req with
  | some e => rw [hv] at h; exact absurd h (by simp)
  | none =>
    rw [hv] at h
    dsimp only at h
    have hok := Except.ok.inj h
    subst hok
    have hs' : WB (createTxn s uid req.kind req.asset req.amount .PENDING
        req.fromAsset req.toAsset req.planId).2 := hs
    refine WB_processTransaction (t := (createTxn s uid req.kind req.asset
      req.amount .PENDING req.fromAsset req.toAsset req.planId).1) hs' ?_ ?_
      fails
    · intro hk
      exact hdep hk
    · intro hk
      refine ⟨?_, hrate hk⟩
      rcases validate_withdraw_exchange hv (Or.inr hk) with ⟨w, _, _, hmin⟩
      have := minAmount_pos req.asset
      have h0 : (0 : ℚ) ≤ req.amount := by linarith
      exact h0

/-! ### The wallet service never touches the subscription or plan tables -/

theorem tables_processDeposit (fails : List Nat) (s : St) (uid : Nat)
    (a : Asset) (amt : ℚ) :
    (WalletService.processDeposit fails s uid a amt).2.subs = s.subs ∧
    (WalletService.processDeposit fails s uid a amt).2.plans = s.plans := by
  unfold WalletService.processDeposit
  cases hfw : findWallet s uid a with
  | none => exact ⟨rfl, rfl⟩
  | some w =>
    dsimp only
    have h₁ := subs_updateWalletBalance fails s w.id (w.balance + amt)
    have h₂ := plans_updateWalletBalance fails s w.id (w.balance + amt)
    cases hu : updateWalletBalance fails s w.id (w.balance + amt) with
    | mk r s₁ =>
      rw [hu] at h₁ h₂
      cases r <;> simp only [hu] <;> exact ⟨h₁, h₂⟩

theorem tables_processWithdrawal (fails : List Nat) (s : St) (uid : Nat)
    (a : Asset) (amt : ℚ) :
    (WalletService.processWithdrawal fails s uid a amt).2.subs = s.subs ∧
    (WalletService.processWithdrawal fails s uid a amt).2.plans = s.plans := by
  unfold WalletService.processWithdrawal
  cases hfw : findWallet s uid a with
  | none => exact ⟨rfl, rfl⟩
  | some w =>
    dsimp only
    split
    · exact ⟨rfl, rfl⟩
    · split
      · exact ⟨rfl, rfl⟩
      · have h₁ := subs_updateWalletBalance fails s w.id
          (w.balance - (amt + networkFee a))
        have h₂ := plans_updateWalletBalance fails s w.id
          (w.balance - (amt + networkFee a))
        cases hu : updateWalletBalance fails s w.id
            (w.balance - (amt + networkFee a)) with
        | mk r s₁ =>
          rw [hu] at h₁ h₂
          cases r <;> exact ⟨h₁, h₂⟩

theorem tables_processExchange (fails : List Nat) (rate : ℚ) (s : St)
    (uid : Nat) (fromA toA : Asset) (amt : ℚ) :
    (WalletService.processExchange fails rate s uid fromA toA amt).2.subs =
      s.subs ∧
    (WalletService.processExchange fails rate s uid fromA toA amt).2.plans =
      s.plans := by
  unfold WalletService.processExchange
  cases hf : findWallet s uid fromA with
  | none => exact ⟨rfl, rfl⟩
  | some fw =>
    cases ht : findWallet s uid toA with
    | none => exact ⟨rfl, rfl⟩
    | some tw =>
      dsimp only
      split
      · exact ⟨rfl, rfl⟩
      · constructor
        · rw [subs_updateWalletBalance, subs_updateWalletBalance]
        · rw [plans_updateWalletBalance, plans_updateWalletBalance]

theorem tables_finishTxn (s : St) (tid : Nat) (b : Bool) :
    (WalletService.finishTxn s tid b).subs = s.subs ∧
    (WalletService.finishTxn s tid b).plans = s.plans := by
  unfold WalletService.finishTxn
  split <;> exact ⟨rfl, rfl⟩

theorem tables_processTransaction (fails : List Nat) (rate : ℚ) (s : St)
    (t : Txn) :
    (WalletService.processTransaction fails rate s t).subs = s.subs ∧
    (WalletService.processTransaction fails rate s t).plans = s.plans := by
  unfold WalletService.processTransaction
  cases t.kind with
  | WITHDRAW => exact ⟨rfl, rfl⟩
  | DEPOSIT =>
    rcases tables_processDeposit fails s t.user_id t.asset t.amount with
      ⟨h₁, h₂⟩
    rcases tables_finishTxn
      (WalletService.processDeposit fails s t.user_id t.asset t.amount).2
      t.id (WalletService.processDeposit fails s t.user_id t.asset
        t.amount).1 with ⟨h₃, h₄⟩
    exact ⟨h₃.trans h₁, h₄.trans h₂⟩
  | EXCHANGE =>
    cases t.from_asset with
    | none =>
      cases t.to_asset with
      | none =>
        rcases tables_finishTxn s t.id false with ⟨h₃, h₄⟩
        exact ⟨h₃, h₄⟩
      | some toA =>
        rcases tables_finishTxn s t.id false with ⟨h₃, h₄⟩
        exact ⟨h₃, h₄⟩
    | some f =>
      cases t.to_asset with
      | none =>
        rcases tables_finishTxn s t.id false with ⟨h₃, h₄⟩
        exact ⟨h₃, h₄⟩
      | some toA =>
        rcases tables_processExchange fails rate s t.user_id f toA
          t.amount with ⟨h₁, h₂⟩
        rcases tables_finishTxn (WalletService.processExchange fails rate s
          t.user_id f toA t.amount).2 t.id (WalletService.processExchange
          fails rate s t.user_id f toA t.amount).1 with ⟨h₃, h₄⟩
        exact ⟨h₃.trans h₁, h₄.trans h₂⟩
  | INVEST =>
    rcases tables_finishTxn s t.id true with ⟨h₃, h₄⟩
    exact ⟨h₃, h₄⟩

theorem tables_createTransaction {fails : List Nat} {rate : ℚ} {s : St}
    {uid : Nat} {req : TxnRequest} {s₁ : St}
    (h : WalletService.createTransaction fails rate s uid req = .ok s₁) :
    s₁.subs = s.subs ∧ s₁.plans = s.plans := by
  unfold WalletService.createTransaction at h
  cases hv : WalletService.validateTransaction s uid req with
  | some e => rw [hv] at h; exact absurd h (by simp)
  | none =>
    rw [hv] at h
    dsimp only at h
    have hok := Except.ok.inj h
    subst hok
    exact tables_processTransaction fails rate _ _

theorem tables_approveWithdrawal (fails : List Nat) (s : St) (tid : Nat) :
    (WalletService.approveWithdrawal fails s tid).2.subs = s.subs ∧
    (WalletService.approveWithdrawal fails s tid).2.plans = s.plans := by
  unfold WalletService.approveWithdrawal
  cases ht : txnById s tid with
  | none => exact ⟨rfl, rfl⟩
  | some t =>
    dsimp only
    split
    · rcases tables_processWithdrawal fails s t.user_id t.asset t.amount with
        ⟨h₁, h₂⟩
      split
      · exact ⟨h₁, h₂⟩
      · exact ⟨h₁, h₂⟩
    · exact ⟨rfl, rfl⟩

theorem tables_rejectWithdrawal (s : St) (tid : Nat) :
    (WalletService.rejectWithdrawal s tid).2.subs = s.subs ∧
    (WalletService.rejectWithdrawal s tid).2.plans = s.plans := by
  unfold WalletService.rejectWithdrawal
  cases ht : txnById s tid with
  | none => exact ⟨rfl, rfl⟩
  | some t =>
    dsimp only
    split
    · exact ⟨rfl, rfl⟩
    · exact ⟨rfl, rfl⟩

theorem tables_createInvestment (fails : List Nat) (now : Int) (s : St)
    (uid : Nat) (req : InvestmentService.InvestmentRequest) :
    (InvestmentService.createInvestment fails now s uid req).2.subs =
      s.subs ∧
    (InvestmentService.createInvestment fails now s uid req).2.plans =
      s.plans := by
  unfold InvestmentService.createInvestment
  cases hv : InvestmentService.validateInvestment s req with
  | error e => exact ⟨rfl, rfl⟩
  | ok plan =>
    cases hfw : findWallet s uid req.asset with
    | none => exact ⟨rfl, rfl⟩
    | some w =>
      dsimp only
      split
      · exact ⟨rfl, rfl⟩
      · cases hct : WalletService.createTransaction fails 1 s uid
            { kind := .INVEST, asset := req.asset, amount := req.amount,
              planId := some req.planId } with
        | error e => exact ⟨rfl, rfl⟩
        | ok s₁ => exact tables_createTransaction hct

/-! ### Balance non-negativity through approval and investment creation -/

theorem WB_approveWithdrawal {s : St} (hs : WB s) (fails : List Nat)
    (tid : Nat) : WB (WalletService.approveWithdrawal fails s tid).2 := by
  unfold WalletService.approveWithdrawal
  cases ht : txnById s tid with
  | none => exact hs
  | some t =>
    dsimp only
    split
    · split
      · exact WB_updateTxnStatus
          (WB_processWithdrawal hs fails t.user_id t.asset t.amount) tid
          .COMPLETED
      · exact WB_processWithdrawal hs fails t.user_id t.asset t.amount
    · exact hs

theorem WB_rejectWithdrawal {s : St} (hs : WB s) (tid : Nat) :
    WB (WalletService.rejectWithdrawal s tid).2 := by
  unfold WalletService.rejectWithdrawal
  cases ht : txnById s tid with
  | none => exact hs
  | some t =>
    dsimp only
    split
    · exact WB_updateTxnStatus hs tid .REJECTED
    · exact hs

theorem WB_createInvestment {s : St} (hs : WB s) (fails : List Nat)
    (now : Int) (uid : Nat) (req : InvestmentService.InvestmentRequest) :
    WB (InvestmentService.createInvestment fails now s uid req).2 := by
  unfold InvestmentService.createInvestment
  cases hv : InvestmentService.validateInvestment s req with
  | error e => exact hs
  | ok plan =>
    cases hfw : findWallet s uid req.asset with
    | none => exact hs
    | some w =>
      dsimp only
      split
      · exact hs
      · cases hct : WalletService.createTransaction fails 1 s uid
            { kind := .INVEST, asset := req.asset, amount := req.amount,
              planId := some req.planId } with
        | error e => exact hs
        | ok s₁ =>
          exact WB_createTransaction hs fails (fun hk => by simp at hk)
            (fun hk => by simp at hk) hct

/-! ### Well-formedness through the accrual sweep -/

theorem SA_updateWalletBalance {s : St} (hsa : SA s) (fails : List Nat)
    (wid : Nat) (b : ℚ) : SA (updateWalletBalance fails s wid b).2 := by
  intro sb hsb
  rw [subs_updateWalletBalance] at hsb
  exact hsa sb hsb

theorem PA_updateWalletBalance {s : St} (hpa : PA s) (fails : List Nat)
    (wid : Nat) (b : ℚ) : PA (updateWalletBalance fails s wid b).2 := by
  intro p hp
  rw [plans_updateWalletBalance] at hp
  exact hpa p hp

theorem SA_subSetEarned {s : St} (hsa : SA s) (sid : Nat) (e : ℚ) :
    SA (subSetEarned s sid e) := by
  intro sb hsb
  rcases List.mem_map.1 hsb with ⟨x, hx, rfl⟩
  by_cases hid : (x.id == sid) = true <;> simpa [hid] using hsa x hx

theorem SA_subSetStatus {s : St} (hsa : SA s) (sid : Nat) (st : SubStatus) :
    SA (subSetStatus s sid st) := by
  intro sb hsb
  rcases List.mem_map.1 hsb with ⟨x, hx, rfl⟩
  by_cases hid : (x.id == sid) = true <;> simpa [hid] using hsa x hx

theorem WF_updateWalletBalance {s : St} {b : ℚ} {fails : List Nat}
    {wid : Nat} (h : WFState s) (hb : 0 ≤ b) :
    WFState (updateWalletBalance fails s wid b).2 :=
  ⟨WB_updateWalletBalance h.1 hb fails wid,
   SA_updateWalletBalance h.2.1 fails wid b,
   PA_updateWalletBalance h.2.2 fails wid b⟩

theorem WF_subSetEarned {s : St} {sid : Nat} {e : ℚ} (h : WFState s) :
    WFState (subSetEarned s sid e) :=
  ⟨h.1, SA_subSetEarned h.2.1 sid e, h.2.2⟩

theorem WF_subSetStatus {s : St} {sid : Nat} {st : SubStatus}
    (h : WFState s) : WFState (subSetStatus s sid st) :=
  ⟨h.1, SA_subSetStatus h.2.1 sid st, h.2.2⟩

theorem WF_createTxn {s : St} {uid : Nat} {k : TxKind} {a : Asset} {amt : ℚ}
    {st : TxStatus} {fA tA : Option Asset} {pid : Option Nat}
    (h : WFState s) : WFState (createTxn s uid k a amt st fA tA pid).2 :=
  ⟨h.1, h.2.1, h.2.2⟩

theorem WF_accrueOne {s : St} (h : WFState s)
    {pr : Subscription × Option Plan} (hsa : 0 ≤ pr.1.amount)
    (hpa : ∀ p, pr.2 = some p → 0 ≤ p.apy) (fails : List Nat) (now : Int) :
    WFState (InvestmentService.accrueOne fails now s pr) := by
  unfold InvestmentService.accrueOne
  cases hp : pr.2 with
  | none => exact h
  | some plan =>
    have hapy := hpa plan hp
    have hE : 0 ≤ pr.1.amount * (plan.apy / 365 / 100) := by
      have h365 : (0 : ℚ) ≤ plan.apy / 365 / 100 := by positivity
      exact mul_nonneg hsa h365
    dsimp only
    split
    · -- maturity sweep (now has reached the end date)
      split
      · -- the user's USDT wallet row was found: both credits applied
        rename_i uw huw
        have huwb : 0 ≤ uw.balance := h.1 uw (findWallet_mem huw)
        exact WF_createTxn (WF_updateWalletBalance
          (WF_subSetStatus (WF_createTxn (WF_updateWalletBalance
            (WF_subSetEarned h) (by linarith)))) (by linarith))
      · -- no USDT wallet: both credits skipped
        exact WF_createTxn (WF_subSetStatus (WF_createTxn (WF_subSetEarned h)))
    · -- ordinary daily sweep
      split
      · rename_i uw huw
        have huwb : 0 ≤ uw.balance := h.1 uw (findWallet_mem huw)
        exact WF_createTxn (WF_updateWalletBalance (WF_subSetEarned h)
          (by linarith))
      · exact WF_createTxn (WF_subSetEarned h)

theorem WF_accrue_foldl (fails : List Nat) (now : Int)
    (l : List (Subscription × Option Plan)) :
    ∀ s : St, WFState s →
      (∀ pr ∈ l, 0 ≤ pr.1.amount ∧ ∀ p, pr.2 = some p → 0 ≤ p.apy) →
      WFState (l.foldl (InvestmentService.accrueOne fails now) s) := by
  induction l with
  | nil => exact fun s hs _ => hs
  | cons pr rest ih =>
    intro s hs hl
    simp only [List.foldl_cons]
    exact ih _ (WF_accrueOne hs (hl pr (by simp)).1 (hl pr (by simp)).2
      fails now) fun q hq => hl q (by simp [hq])

theorem WF_processEarnings {s : St} (h : WFState s) (fails : List Nat)
    (now : Int) :
    WFState (InvestmentService.processEarnings fails now s) := by
  unfold InvestmentService.processEarnings
  apply WF_accrue_foldl fails now _ s h
  intro pr hpr
  rcases List.mem_map.1 hpr with ⟨sb, hsb, rfl⟩
  constructor
  · exact h.2.1 sb (List.mem_filter.1 hsb).1
  · intro p hp
    exact h.2.2 p (List.mem_of_find?_eq_some hp)

/-! ### Well-formedness through every operation -/

theorem WF_createTransaction {s : St} (h : WFState s) {uid : Nat}
    {req : TxnRequest} {rate : ℚ} {s₁ : St} (fails : List Nat)
    (hdep : req.kind = .DEPOSIT → 0 ≤ req.amount)
    (hrate : req.kind = .EXCHANGE → 0 ≤ rate)
    (hok : WalletService.createTransaction fails rate s uid req = .ok s₁) :
    WFState s₁ := by
  rcases tables_createTransaction hok with ⟨h₁, h₂⟩
  refine ⟨WB_createTransaction h.1 fails hdep hrate hok, ?_, ?_⟩
  · intro sb hsb
    rw [h₁] at hsb
    exact h.2.1 sb hsb
  · intro p hp
    rw [h₂] at hp
    exact h.2.2 p hp

theorem WF_step {s : St} (h : WFState s) {op : Op} (hop : WFOp op) :
    WFState (step s op) := by
  cases op with
  | submitDeposit uid a amt fails =>
    dsimp only [step]
    cases hct : WalletService.createTransaction fails 1 s uid
        { kind := .DEPOSIT, asset := a, amount := amt } with
    | error e => exact h
    | ok s₁ =>
      have hamt : (0 : ℚ) ≤ amt := hop
      exact WF_createTransaction h fails (fun _ => hamt)
        (fun hk => by simp at hk) hct
  | submitWithdraw uid a amt fails =>
    dsimp only [step]
    cases hct : WalletService.createTransaction fails 1 s uid
        { kind := .WITHDRAW, asset := a, amount := amt } with
    | error e => exact h
    | ok s₁ =>
      exact WF_createTransaction h fails (fun hk => by simp at hk)
        (fun hk => by simp at hk) hct
  | submitExchange uid src dst amt rate fails =>
    dsimp only [step]
    cases hct : WalletService.createTransaction fails rate s uid
        { kind := .EXCHANGE, asset := src, amount := amt,
          fromAsset := some src, toAsset := some dst } with
    | error e => exact h
    | ok s₁ =>
      have hrate : (0 : ℚ) ≤ rate := hop
      exact WF_createTransaction h fails (fun hk => by simp at hk)
        (fun _ => hrate) hct
  | submitInvest uid pid a amt now fails =>
    dsimp only [step]
    rcases tables_createInvestment fails now s uid
      { planId := pid, amount := amt, asset := a } with ⟨h₁, h₂⟩
    refine ⟨WB_createInvestment h.1 fails now uid _, ?_, ?_⟩
    · intro sb hsb
      rw [h₁] at hsb
      exact h.2.1 sb hsb
    · intro p hp
      rw [h₂] at hp
      exact h.2.2 p hp
  | approveTx tid fails =>
    dsimp only [step]
    rcases tables_approveWithdrawal fails s tid with ⟨h₁, h₂⟩
    refine ⟨WB_approveWithdrawal h.1 fails tid, ?_, ?_⟩
    · intro sb hsb
      rw [h₁] at hsb
      exact h.2.1 sb hsb
    · intro p hp
      rw [h₂] at hp
      exact h.2.2 p hp
  | rejectTx tid =>
    dsimp only [step]
    rcases tables_rejectWithdrawal s tid with ⟨h₁, h₂⟩
    refine ⟨WB_rejectWithdrawal h.1 tid, ?_, ?_⟩
    · intro sb hsb
      rw [h₁] at hsb
      exact h.2.1 sb hsb
    · intro p hp
      rw [h₂] at hp
      exact h.2.2 p hp
  | sweep now fails => exact WF_processEarnings h fails now

theorem WF_run {s : St} (h : WFState s) {ops : List Op}
    (hops : ∀ op ∈ ops, WFOp op) : WFState (run s ops) := by
  induction ops generalizing s with
  | nil => exact h
  | cons op rest ih =>
    have h₁ : WFState (step s op) :=
      WF_step h (hops op (List.mem_cons_self op rest))
    have h₂ : ∀ o ∈ rest, WFOp o := fun o ho =>
      hops o (List.mem_cons_of_mem op ho)
    simpa only [run, List.foldl_cons] using ih h₁ h₂

/-! ### Claim theorems -/

/-- Claim C2: for every sequence of submit (DEPOSIT, WITHDRAW, EXCHANGE,
INVEST), approve, reject and accrual-sweep operations on a well-formed store
whose wallet balances start non-negative, every wallet balance observed after
every prefix of the sequence is at least 0. -/
theorem noNegativeBalances (s : St) (ops : List Op) (hs : WFState s)
    (hops : ∀ op ∈ ops, WFOp op) (n : Nat) (w : Wallet)
    (hw : w ∈ (run s (ops.take n)).wallets) : 0 ≤ w.balance :=
  (WF_run hs fun op hop => hops op (List.take_subset n ops hop)).1 w hw

/-- Witness for C2: a concrete store and deposit sequence. -/
theorem noNegativeBalancesWitness :
    WFState c2Init ∧ 0 ≤ (Wallet.mk 1 7 .USDT 8).balance := by
  have hwf : WFState c2Init := by
    refine ⟨?_, ?_, ?_⟩ <;> intro x hx <;>
      simp [c2Init] at hx <;> simp [hx]
  refine ⟨hwf, ?_⟩
  refine noNegativeBalances c2Init c2Ops hwf ?_ 1 _ ?_
  · intro op hop
    simp only [c2Ops, List.mem_singleton] at hop
    subst hop
    show (0 : ℚ) ≤ 3
    norm_num
  · norm_num [run, c2Ops, c2Init, step, WalletService.createTransaction,
      WalletService.validateTransaction, WalletService.processTransaction,
      WalletService.processDeposit, WalletService.finishTxn, createTxn,
      updateTxnStatus, updateWalletBalance, findWallet, getUserWallets,
      List.find?]

/-- Claim C1 (code bug): processEarnings keeps no last-accrual marker.  At
12.5 percent per year a sweep credits principal 1000 times 12.5/365/100 =
25/73 (approx 0.3425) to the owner's USDT wallet, and an immediately
repeated sweep credits the same amount again (total 50/73) instead of 0. -/
theorem accrualSweepDoublePays :
    usdtBal (InvestmentService.processEarnings [] msPerDay c1St) 7 =
      25 / 73 ∧
    usdtBal (InvestmentService.processEarnings [] msPerDay
      (InvestmentService.processEarnings [] msPerDay c1St)) 7 = 50 / 73 := by
  constructor <;>
    norm_num [InvestmentService.processEarnings, InvestmentService.accrueOne,
      usdtBal, findWallet, getUserWallets, subSetEarned, subSetStatus,
      updateWalletBalance, createTxn, c1St, c1Wallet, c1Plan, c1Sub,
      msPerDay, List.find?]

/-- Claim C5 (code bug): when a sweep matures a subscription (now at the end
date, principal 1000 at 5.5 percent per year, wallet balance 100), the
principal write re-uses the wallet row read before the earnings credit, so
the final balance is 100 + 1000 = 1100: the day's earnings
1000 * 5.5/365/100 = 11/73 are overwritten instead of being reflected in the
final balance alongside the principal.  The subscription does flip to
COMPLETED, and a repeated sweep afterwards changes nothing. -/
theorem maturityPayoutLosesEarnings :
    usdtBal (InvestmentService.processEarnings [] (30 * msPerDay) c5St) 7 =
      1100 ∧
    usdtBal (InvestmentService.processEarnings [] (30 * msPerDay) c5St) 7 ≠
      1100 + 11 / 73 ∧
    subStatusOf (InvestmentService.processEarnings [] (30 * msPerDay) c5St)
      5 = some .COMPLETED ∧
    usdtBal (InvestmentService.processEarnings [] (30 * msPerDay)
      (InvestmentService.processEarnings [] (30 * msPerDay) c5St)) 7 =
      1100 := by
  refine ⟨?_, ?_, ?_, ?_⟩ <;>
    norm_num [InvestmentService.processEarnings, InvestmentService.accrueOne,
      usdtBal, subStatusOf, findWallet, getUserWallets, subSetEarned,
      subSetStatus, updateWalletBalance, createTxn, c5St, c5Plan, c5Sub,
      msPerDay, List.find?]

/-- Claim C4 (code bug): processExchange ignores the results of both balance
writes.  With the credit-leg write failing (wallet id 2 listed in the
transient-failure set), exchanging 100 USDT for BTC leaves the source wallet
debited to 900 while the destination stays at 0, and the transaction is
still marked COMPLETED: the debit is not rolled back before returning, and
the operation even reports success. -/
theorem exchangeCreditFailureKeepsDebit :
    usdtBal (step c4St (.submitExchange 7 .USDT .BTC 100 (1 / 20000) [2]))
      7 = 900 ∧
    balOf (step c4St (.submitExchange 7 .USDT .BTC 100 (1 / 20000) [2])) 7
      .BTC = 0 ∧
    txnById (step c4St (.submitExchange 7 .USDT .BTC 100 (1 / 20000) [2]))
      0 = some c4Txn := by
  refine ⟨?_, ?_, ?_⟩ <;>
    simp +decide +arith [step, WalletService.createTransaction,
      WalletService.validateTransaction, WalletService.processTransaction,
      WalletService.processExchange, WalletService.finishTxn, createTxn,
      updateTxnStatus, updateWalletBalance, txnById, usdtBal, balOf,
      findWallet, getUserWallets, minAmount, exchangeFeeRate, c4St, c4Txn,
      List.find?] <;> norm_num

/-- Claim C6 (code bug): a fully valid INVEST (active plan, amount within
the plan bounds, sufficient balance) never succeeds, because
walletService.createTransaction returns void and the falsy check on the
awaited value always fires.  The call reports failure, creates no
subscription and leaves the wallet undebited, while the INVEST transaction
row it already inserted has been marked COMPLETED. -/
theorem createInvestmentAlwaysFails :
    (InvestmentService.createInvestment [] 0 c6St 7 c6Req).1 =
      { success := false,
        errorMsg := some .failedToCreateInvestmentTransaction } ∧
    ((InvestmentService.createInvestment [] 0 c6St 7 c6Req).2).subs = [] ∧
    usdtBal (InvestmentService.createInvestment [] 0 c6St 7 c6Req).2 7 =
      1000 ∧
    txnById (InvestmentService.createInvestment [] 0 c6St 7 c6Req).2 0 =
      some c6Txn := by
  refine ⟨?_, ?_, ?_, ?_⟩ <;>
    simp +decide +arith [InvestmentService.createInvestment,
      InvestmentService.validateInvestment, InvestmentService.maxExceeded,
      WalletService.createTransaction, WalletService.validateTransaction,
      WalletService.processTransaction, WalletService.finishTxn, createTxn,
      updateTxnStatus, txnById, usdtBal, findWallet, getUserWallets, c6St,
      c6Req, c6Txn, c5Plan, List.find?]

/-- Claim C9 (code bug): cancelInvestment reports success after the status
flip alone.  For an owner holding no USDT wallet the refund credit is
silently skipped: the call succeeds, the subscription is CANCELLED, and
every wallet balance is unchanged, so a reported success does not mean the
wallet credit committed; and retrying afterwards fails with
`Investment is not active`, so nothing can recover the refund. -/
theorem cancelReportsSuccessWithoutCredit :
    (InvestmentService.cancelInvestment [] 0 c9St 7 5).1 =
      { success := true } ∧
    subStatusOf (InvestmentService.cancelInvestment [] 0 c9St 7 5).2 5 =
      some .CANCELLED ∧
    ((InvestmentService.cancelInvestment [] 0 c9St 7 5).2).wallets =
      c9St.wallets ∧
    (InvestmentService.cancelInvestment [] 0
      (InvestmentService.cancelInvestment [] 0 c9St 7 5).2 7 5).1 =
      { success := false, errorMsg := some .investmentNotActive } := by
  refine ⟨?_, ?_, ?_, ?_⟩ <;>
    simp +decide +arith [InvestmentService.cancelInvestment,
      InvestmentService.cancelPenalty, InvestmentService.daysBetween,
      subStatusOf, subSetStatus, createTxn, updateWalletBalance, findWallet,
      getUserWallets, c9St, c5Sub, msPerDay, List.find?]

/-- Claim C8: cancelling an ACTIVE subscription always splits the principal
exactly into refund plus penalty; at day 29 of the 30-day grace period the
penalty is the configured 5 percent of the principal and the remainder is
refunded, at day 31 the penalty is 0 and the full principal is refunded;
and the refund is credited to the owner's USDT settlement wallet. -/
theorem cancellationPenaltyBoundary (s : St) (uid sid : Nat) (now : Int)
    (sub : Subscription) (uw : Wallet)
    (hfind : s.subs.find? (fun sb => sb.id == sid && sb.user_id == uid) =
      some sub)
    (hact : sub.status = .ACTIVE)
    (huw : findWallet s uid .USDT = some uw) :
    (InvestmentService.cancelPenalty sub.amount
        (InvestmentService.daysBetween now sub.start_date)).1 +
      (InvestmentService.cancelPenalty sub.amount
        (InvestmentService.daysBetween now sub.start_date)).2 =
      sub.amount ∧
    (InvestmentService.daysBetween now sub.start_date = 29 →
      (InvestmentService.cancelPenalty sub.amount 29).2 =
        sub.amount * (5 / 100) ∧
      (InvestmentService.cancelPenalty sub.amount 29).1 =
        sub.amount - sub.amount * (5 / 100)) ∧
    (InvestmentService.daysBetween now sub.start_date = 31 →
      (InvestmentService.cancelPenalty sub.amount 31).2 = 0 ∧
      (InvestmentService.cancelPenalty sub.amount 31).1 = sub.amount) ∧
    (InvestmentService.cancelInvestment [] now s uid sid).1 =
      { success := true } ∧
    findWallet (InvestmentService.cancelInvestment [] now s uid sid).2 uid
      .USDT = some { uw with balance := uw.balance +
        (InvestmentService.cancelPenalty sub.amount
          (InvestmentService.daysBetween now sub.start_date)).1 } := by
  refine ⟨?_, ?_, ?_, ?_, ?_⟩
  · unfold InvestmentService.cancelPenalty
    split <;> ring
  · intro _
    norm_num [InvestmentService.cancelPenalty]
  · intro _
    norm_num [InvestmentService.cancelPenalty]
  · unfold InvestmentService.cancelInvestment
    rw [hfind]
    simp [hact]
  · unfold InvestmentService.cancelInvestment
    rw [hfind]
    simp only [hact, beq_self_eq_true, Bool.not_true, Bool.false_eq_true,
      if_false]
    have huw₁ : findWallet (subSetStatus s sid .CANCELLED) uid .USDT =
      some uw := huw
    rw [huw₁]
    exact findWallet_updateWalletBalance huw₁ _

/-- Witness for C8: cancelling the concrete subscription (principal 1000) at
day 29 credits the USDT wallet with the 95 percent refund: 100 + 950. -/
theorem cancellationPenaltyBoundaryWitness :
    usdtBal (InvestmentService.cancelInvestment [] (29 * msPerDay) c8St 7
      5).2 7 = 1050 := by
  have h := cancellationPenaltyBoundary c8St 7 5 (29 * msPerDay) c8Sub
    c8Wallet rfl rfl rfl
  unfold usdtBal
  rw [h.2.2.2.2]
  have hd : InvestmentService.daysBetween (29 * msPerDay) c8Sub.start_date =
      29 := by decide
  rw [hd]
  norm_num [InvestmentService.cancelPenalty, c8Sub, c8Wallet]

/-- Counterexample to claim C3 as stated: submitting a withdrawal of 10 USDT
against a balance of 20 leaves the balance at 20 with a PENDING row, but
approval then debits 11 — the amount PLUS the 1 USDT network fee — leaving
9 rather than the 10 the claim's "debits exactly the withdrawal amount"
requires. -/
theorem approveDebitsMoreThanAmount :
    WalletService.createTransaction [] 1 c3St 7
      { kind := .WITHDRAW, asset := .USDT, amount := 10 } = .ok c3StAfter ∧
    (WalletService.approveWithdrawal [] c3StAfter 0).1 = true ∧
    usdtBal (WalletService.approveWithdrawal [] c3StAfter 0).2 7 = 9 ∧
    usdtBal (WalletService.approveWithdrawal [] c3StAfter 0).2 7 ≠
      20 - 10 := by
  refine ⟨?_, ?_, ?_, ?_⟩ <;>
    simp +decide +arith [WalletService.createTransaction,
      WalletService.validateTransaction, WalletService.processTransaction,
      WalletService.approveWithdrawal, WalletService.processWithdrawal,
      createTxn, networkFee, minAmount, txnById, updateTxnStatus,
      updateWalletBalance, usdtBal, findWallet, getUserWallets, c3St,
      c3StAfter, c3Pending, c3Wallet, List.find?] <;> norm_num

/-- Claim C3 (amended): submitting a WITHDRAW whose amount lies between the
asset minimum and the balance leaves the balance unchanged and creates a
PENDING row.  Approval re-validates against the balance current at approval
time and debits the amount PLUS the asset's network fee: it succeeds when
amount + networkFee is covered, marking the row COMPLETED; when the balance
has dropped below the amount in the interim it fails (the internal
insufficient-balance error is surfaced as a failed approval) and changes
nothing.  Rejection flips the row to REJECTED and never touches balances. -/
theorem withdrawTwoPhaseAmended (s : St) (uid : Nat) (a : Asset) (amt : ℚ)
    (w : Wallet) (s₂ : St) (tid : Nat) (t : Txn) (w₂ : Wallet)
    (hw : findWallet s uid a = some w) (hmin : minAmount a ≤ amt)
    (hbal : amt ≤ w.balance)
    (ht : txnById s₂ tid = some t) (hkind : t.kind = .WITHDRAW)
    (hst : t.status = .PENDING)
    (hw₂ : findWallet s₂ t.user_id t.asset = some w₂) :
    (∃ s₁, WalletService.createTransaction [] 1 s uid
        { kind := .WITHDRAW, asset := a, amount := amt } = .ok s₁ ∧
      s₁.wallets = s.wallets ∧
      s₁.txns = s.txns ++
        [{ id := s.nextId, user_id := uid, kind := .WITHDRAW, asset := a, amount := amt, status := .PENDING }]) ∧
    (t.amount + networkFee t.asset ≤ w₂.balance →
      (WalletService.approveWithdrawal [] s₂ tid).1 = true ∧
      findWallet (WalletService.approveWithdrawal [] s₂ tid).2 t.user_id
        t.asset =
        some { w₂ with balance := w₂.balance - (t.amount + networkFee t.asset) } ∧
      txnById (WalletService.approveWithdrawal [] s₂ tid).2 tid =
        some { t with status := .COMPLETED }) ∧
    (w₂.balance < t.amount →
      WalletService.approveWithdrawal [] s₂ tid = (false, s₂)) ∧
    ((WalletService.rejectWithdrawal s₂ tid).1 = true ∧
      ((WalletService.rejectWithdrawal s₂ tid).2).wallets = s₂.wallets ∧
      txnById (WalletService.rejectWithdrawal s₂ tid).2 tid =
        some { t with status := .REJECTED }) := by
  have hguard : (t.kind == TxKind.WITHDRAW && t.status == TxStatus.PENDING)
      = true := by
    rw [hkind, hst]
    rfl
  refine ⟨?_, ?_, ?_, ?_⟩
  · have hv : WalletService.validateTransaction s uid
        { kind := .WITHDRAW, asset := a, amount := amt } = none := by
      unfold WalletService.validateTransaction
      dsimp only
      rw [hw]
      dsimp only
      rw [if_neg (not_lt.2 hbal), if_neg (not_lt.2 hmin)]
    refine ⟨WalletService.processTransaction [] 1
      (createTxn s uid .WITHDRAW a amt .PENDING none none none).2
      (createTxn s uid .WITHDRAW a amt .PENDING none none none).1,
      ?_, rfl, rfl⟩
    unfold WalletService.createTransaction
    rw [hv]
  · intro hfee
    have hnl₁ : ¬(w₂.balance < t.amount) := by
      have := networkFee_pos t.asset
      rw [not_lt]
      linarith
    have hnl₂ : ¬(w₂.balance < t.amount + networkFee t.asset) := not_lt.2 hfee
    obtain ⟨w₀, hup⟩ := updateWalletBalance_spec (findWallet_mem hw₂)
      (w₂.balance - (t.amount + networkFee t.asset))
    have hpw : WalletService.processWithdrawal [] s₂ t.user_id t.asset
        t.amount = (true, (updateWalletBalance [] s₂ w₂.id
          (w₂.balance - (t.amount + networkFee t.asset))).2) := by
      unfold WalletService.processWithdrawal
      rw [hw₂]
      dsimp only
      rw [if_neg hnl₁, if_neg hnl₂, hup]
    have happ : WalletService.approveWithdrawal [] s₂ tid =
        (true, updateTxnStatus (updateWalletBalance [] s₂ w₂.id
          (w₂.balance - (t.amount + networkFee t.asset))).2 tid
          .COMPLETED) := by
      unfold WalletService.approveWithdrawal
      rw [ht]
      dsimp only
      rw [if_pos hguard]
      rw [hpw]
      rfl
    rw [happ]
    refine ⟨rfl, ?_, ?_⟩
    · exact findWallet_updateWalletBalance hw₂
        (w₂.balance - (t.amount + networkFee t.asset))
    · have ht₁ : txnById (updateWalletBalance [] s₂ w₂.id
          (w₂.balance - (t.amount + networkFee t.asset))).2 tid = some t := by
        unfold txnById
        rw [txns_updateWalletBalance]
        exact ht
      exact txnById_updateTxnStatus ht₁ .COMPLETED
  · intro hlow
    have hpw : WalletService.processWithdrawal [] s₂ t.user_id t.asset
        t.amount = (false, s₂) := by
      unfold WalletService.processWithdrawal
      rw [hw₂]
      dsimp only
      rw [if_pos hlow]
    unfold WalletService.approveWithdrawal
    rw [ht]
    dsimp only
    rw [if_pos hguard]
    rw [hpw]
    rfl
  · unfold WalletService.rejectWithdrawal
    rw [ht]
    dsimp only
    rw [if_pos hguard]
    exact ⟨rfl, rfl, txnById_updateTxnStatus ht .REJECTED⟩

/-- Witness for C3 (amended) at the concrete 20-USDT store: approval of the
pending 10 USDT withdrawal succeeds and completes the row, and rejection
succeeds as well. -/
theorem withdrawTwoPhaseAmendedWitness :
    (WalletService.approveWithdrawal [] c3StAfter 0).1 = true ∧
    txnById (WalletService.approveWithdrawal [] c3StAfter 0).2 0 =
      some { c3Pending with status := .COMPLETED } ∧
    (WalletService.rejectWithdrawal c3StAfter 0).1 = true := by
  have h := withdrawTwoPhaseAmended c3St 7 .USDT 10 c3Wallet c3StAfter 0
    c3Pending c3Wallet rfl (by norm_num [minAmount]) (by norm_num [c3Wallet])
    rfl rfl rfl rfl
  have h₂ := h.2.1 (by norm_num [c3Pending, networkFee, c3Wallet])
  exact ⟨h₂.1, h₂.2.2, h.2.2.2.1⟩

/-- Counterexample to claim C10 as stated: an EXCHANGE of 8 USDT — below the
10 USDT source-asset threshold — from a wallet holding only 5 fails
validation with the insufficient-balance error, not the minimum-amount
error, because the balance check runs before the minimum check. -/
theorem exchangeMinCheckAfterBalanceCheck :
    WalletService.validateTransaction c10St 7 c10Req =
      some .insufficientBalance ∧
    some SvcError.insufficientBalance ≠
      some (SvcError.minimumAmount .USDT (minAmount .USDT)) := by
  constructor
  · simp +decide [WalletService.validateTransaction, findWallet,
      getUserWallets, minAmount, c10St, c10Req, List.find?]
  · simp

/-- Claim C10 (amended): the per-asset minimum thresholds are enforced on
EXCHANGE submissions.  When the source wallet exists and covers the amount,
an exchange amount below the source asset's threshold fails validation with
the minimum-amount error; the submission throws before any transaction row
is created, so the submit step leaves the store completely unchanged.  When
the balance is also insufficient, validation still fails before any row is
created, with the insufficient-balance error instead (see the
counterexample). -/
theorem exchangeMinimumAmountAmended (s : St) (uid : Nat) (src dst : Asset)
    (amt rate : ℚ) (w : Wallet) (fails : List Nat)
    (hw : findWallet s uid src = some w) (hbal : amt ≤ w.balance)
    (hmin : amt < minAmount src) :
    WalletService.validateTransaction s uid (exchangeReq src dst amt) =
      some (.minimumAmount src (minAmount src)) ∧
    WalletService.createTransaction fails rate s uid
      (exchangeReq src dst amt) =
      .error (.minimumAmount src (minAmount src)) ∧
    step s (.submitExchange uid src dst amt rate fails) = s := by
  have hv : WalletService.validateTransaction s uid (exchangeReq src dst amt)
      = some (.minimumAmount src (minAmount src)) := by
    unfold WalletService.validateTransaction exchangeReq
    dsimp only
    rw [hw]
    dsimp only
    rw [if_neg (not_lt.2 hbal), if_pos hmin]
  have hct : WalletService.createTransaction fails rate s uid
      (exchangeReq src dst amt) =
      .error (.minimumAmount src (minAmount src)) := by
    unfold WalletService.createTransaction
    rw [hv]
  refine ⟨hv, hct, ?_⟩
  unfold exchangeReq at hct
  dsimp only [step]
  rw [hct]

/-- Witness for C10 (amended): submitting an 8 USDT exchange from a wallet
holding 20 changes nothing. -/
theorem exchangeMinimumAmountAmendedWitness :
    step c10StB (.submitExchange 7 .USDT .BTC 8 2 []) = c10StB := by
  exact (exchangeMinimumAmountAmended c10StB 7 .USDT .BTC 8 2 c10Wallet []
    rfl (by norm_num [c10Wallet]) (by norm_num [minAmount])).2.2

/-- Counterexample to claim C7 as stated: the sweep reads the plan rate live
through the join, not from a captured copy.  With principal 1000 at 12.5
percent one sweep credits 25/73; after the plan rate is updated to 25
percent the next sweep credits 50/73, for a total of 75/73 — a captured
rate would have given 25/73 again, totalling 50/73. -/
theorem planRateUpdateChangesAccrual :
    usdtBal (InvestmentService.processEarnings [] msPerDay
      (InvestmentService.updatePlan
        (InvestmentService.processEarnings [] msPerDay c1St) 3 c7Upd)) 7 =
      75 / 73 ∧
    (75 : ℚ) / 73 ≠ 50 / 73 := by
  constructor
  · norm_num [InvestmentService.processEarnings,
      InvestmentService.accrueOne, InvestmentService.updatePlan,
      dbUpdatePlan, applyPlanUpdate, c7Upd, usdtBal, findWallet,
      getUserWallets, subSetEarned, subSetStatus, updateWalletBalance,
      createTxn, c1St, c1Wallet, c1Plan, c1Sub, msPerDay, List.find?]
  · norm_num

/-- Claim C7 (amended): a subscription's end date and principal are captured
at creation and unaffected by later plan updates (updatePlan never touches
the subscriptions table), but the yield rate is NOT captured: each sweep
reads the joined plan's current apy, so the sweep after an update accrues at
the updated rate. -/
theorem planCaptureAmended (s : St) (sub : Subscription) (p : Plan)
    (u : PlanUpdate) (w : Wallet) (now : Int)
    (hsubs : s.subs = [sub]) (hact : sub.status = .ACTIVE)
    (hplans : s.plans = [p]) (hpid : sub.plan_id = p.id)
    (hw : findWallet s sub.user_id .USDT = some w)
    (hnow : now < sub.end_date) :
    (InvestmentService.updatePlan s p.id u).subs = [sub] ∧
    findWallet (InvestmentService.processEarnings [] now
        (InvestmentService.updatePlan s p.id u)) sub.user_id .USDT =
      some { w with balance := w.balance + sub.amount * ((applyPlanUpdate p u).apy / 365 / 100) } := by
  have hsubs' : (InvestmentService.updatePlan s p.id u).subs = [sub] := hsubs
  refine ⟨hsubs', ?_⟩
  have hplans' : (InvestmentService.updatePlan s p.id u).plans =
      [applyPlanUpdate p u] := by
    unfold InvestmentService.updatePlan dbUpdatePlan
    dsimp only
    rw [hplans]
    simp
  have hid : (applyPlanUpdate p u).id = p.id := rfl
  unfold InvestmentService.processEarnings
  rw [hsubs']
  simp only [hplans', hact, hpid, hid, List.filter_cons, List.filter_nil,
    beq_self_eq_true, if_true, List.map_cons, List.map_nil,
    List.find?_cons_of_pos, List.foldl_cons, List.foldl_nil]
  unfold InvestmentService.accrueOne
  dsimp only
  have hw₁ : findWallet (subSetEarned (InvestmentService.updatePlan s p.id u)
      sub.id (sub.total_earned + sub.amount *
        ((applyPlanUpdate p u).apy / 365 / 100))) sub.user_id .USDT =
      some w := hw
  rw [hw₁]
  dsimp only
  rw [if_neg (not_le.2 hnow)]
  exact findWallet_updateWalletBalance hw₁ _

/-- Witness for C7 (amended): after the plan rate is updated to 25 percent,
the next sweep credits 1000 * 25/365/100 = 50/73 to the wallet. -/
theorem planCaptureAmendedWitness :
    usdtBal (InvestmentService.processEarnings [] msPerDay
      (InvestmentService.updatePlan c1St 3 c7Upd)) 7 = 50 / 73 := by
  have h := planCaptureAmended c1St c1Sub c1Plan c7Upd c1Wallet msPerDay rfl
    rfl rfl rfl rfl (by decide)
  have h₂ : findWallet (InvestmentService.processEarnings [] msPerDay
      (InvestmentService.updatePlan c1St 3 c7Upd)) 7 .USDT =
      some { c1Wallet with balance := c1Wallet.balance + c1Sub.amount * ((applyPlanUpdate c1Plan c7Upd).apy / 365 / 100) } :=
    h.2
  unfold usdtBal
  rw [h₂]
  norm_num [c1Wallet, c1Sub, applyPlanUpdate, c7Upd, c1Plan]

end CryptoArb
